import Mathlib

/-!
Verification model of the Geode compiler front-end: the program-assembly and
lowering pipeline (file/package loader, dependency path resolver, function
compiler and node lowerer).  The Go sources are embedded shallowly: the IR
library's types and values become inductive types, a basic block carries an
instruction list and an optional terminator slot, and the mutable `Program`
context becomes explicit state passing.  External collaborators (lexer,
parser, IR signature declaration, body lowering, name mangling) appear as
function parameters.
-/

deriving instance DecidableEq for Except

namespace Geode

/-- LLVM-level types as used by the compiler (`llvm/ir/types`): the primitive
types injected into the root scope, pointer types, and named (class) types. -/
inductive GType where
  | i1
  | i8
  | i16
  | i32
  | i64
  | double
  | void
  | ptr (elem : GType)
  | named (name : String)
deriving DecidableEq

/-- `types.IsInt`. -/
def GType.isIntTy : GType → Bool
  | .i1 | .i8 | .i16 | .i32 | .i64 => true
  | _ => false

/-- `types.IsFloat` (the only primitive float type is `double`). -/
def GType.isFloatTy : GType → Bool
  | .double => true
  | _ => false

/-- `types.IsPointer`. -/
def GType.isPointerTy : GType → Bool
  | .ptr _ => true
  | _ => false

/-- `types.IsNumber` (src: `IsNumber(t) = IsInt(t) || IsFloat(t)`). -/
def GType.isNumberTy (t : GType) : Bool :=
  t.isIntTy || t.isFloatTy

/-- The textual form of a type (`types.Type.String()`): integer types print
their bit width, pointers append a star, named types a percent sign. -/
def typeString : GType → String
  | .i1 => "i1"
  | .i8 => "i8"
  | .i16 => "i16"
  | .i32 => "i32"
  | .i64 => "i64"
  | .double => "double"
  | .void => "void"
  | .ptr e => typeString e ++ ("*")
  | .named n => ("%") ++ n

/-- `typeSize` from the node lowerer: the bit width for integer types, the
integer value of the float kind enumerator for float types (`double` is the
third enumerator of the IR library's float-kind enumeration), and `-1`
otherwise. -/
def typeSize : GType → Int
  | .i1 => 1
  | .i8 => 8
  | .i16 => 16
  | .i32 => 32
  | .i64 => 64
  | .double => 2
  | _ => -1

/-- `typesAreLooselyEqual` from the node lowerer. -/
def typesAreLooselyEqual (a b : GType) : Bool :=
  a.isNumberTy && b.isNumberTy

/-- Integer comparison predicates used by the lowerer (`ir.IntEQ`, `ir.IntNE`). -/
inductive IPred where
  | eq
  | ne
deriving DecidableEq

/-- IR values (`llvm/ir/value.Value`).  Instructions are themselves values,
as in the IR library; `nilValue` stands for Go's nil `value.Value` (returned
for instance by a cast to `void`).  The payload of `constFloat` is the
integer literal the compiler builds it from (only `0` occurs in the source). -/
inductive Value where
  | nilValue
  | constInt (val : Int) (ty : GType)
  | constFloat (val : Int) (ty : GType)
  | param (name : String) (ty : GType)
  | trunc (v : Value) (ty : GType)
  | sext (v : Value) (ty : GType)
  | zext (v : Value) (ty : GType)
  | bitcast (v : Value) (ty : GType)
  | fptosi (v : Value) (ty : GType)
  | sitofp (v : Value) (ty : GType)
  | fpext (v : Value) (ty : GType)
  | fptrunc (v : Value) (ty : GType)
  | ptrtoint (v : Value) (ty : GType)
  | inttoptr (v : Value) (ty : GType)
  | icmp (pred : IPred) (a b : Value)
  | xor (a b : Value)
  | sub (a b : Value)
  | fsub (a b : Value)
  | load (v : Value)
deriving DecidableEq

/-- `value.Value.Type()`: the type of a value.  Cast instructions carry their
target type, an `icmp` has type `i1`, the binary instructions take the type
of their first operand, and a `load` strips one pointer level. -/
def Value.typeOf : Value → GType
  | .nilValue => .void
  | .constInt _ t => t
  | .constFloat _ t => t
  | .param _ t => t
  | .trunc _ t => t
  | .sext _ t => t
  | .zext _ t => t
  | .bitcast _ t => t
  | .fptosi _ t => t
  | .sitofp _ t => t
  | .fpext _ t => t
  | .fptrunc _ t => t
  | .ptrtoint _ t => t
  | .inttoptr _ t => t
  | .icmp _ _ _ => .i1
  | .xor a _ => a.typeOf
  | .sub a _ => a.typeOf
  | .fsub a _ => a.typeOf
  | .load v =>
    match v.typeOf with
    | .ptr e => e
    | _ => .void

/-- Block terminators (`ir.TermBr`, `ir.TermCondBr`, `ir.TermRet`);
target blocks are referred to by name. -/
inductive Terminator where
  | br (dest : String)
  | condbr (cond : Value) (thenDest elseDest : String)
  | ret (v : Option Value)
deriving DecidableEq

/-- A basic block (`ir.BasicBlock`): a name, the emitted instruction list,
and the terminator slot (`Term`), which is empty until a terminator is set. -/
structure BasicBlock where
  name : String
  insts : List Value
  term : Option Terminator
deriving DecidableEq

/-- Appending an instruction to a block (the effect of the block's
`NewTrunc`/`NewICmp`/… constructors on the instruction list). -/
def BasicBlock.emit (blk : BasicBlock) (v : Value) : BasicBlock :=
  { blk with insts := blk.insts ++ [v] }

/-- `branchIfNoTerminator(blk, to)`: append an unconditional branch to `to`
when and only when the terminator slot of `blk` is empty. -/
def branchIfNoTerminator (blk toBlk : BasicBlock) : BasicBlock :=
  match blk.term with
  | none => { blk with term := some (.br toBlk.name) }
  | some _ => blk

/-- The in-place retyping of an integer constant performed by
`createTypeCast` (`in.(*constant.Int)` type switch followed by the
`IsInt(to)` guard): succeeds exactly when the input is an integer constant
and the target is an integer type. -/
def castConstInt (v : Value) (toTy : GType) : Option Value :=
  match v with
  | .constInt n _ => if toTy.isIntTy then some (.constInt n toTy) else none
  | _ => none

/-- The analogous in-place retyping of a float constant. -/
def castConstFloat (v : Value) (toTy : GType) : Option Value :=
  match v with
  | .constFloat n _ => if toTy.isFloatTy then some (.constFloat n toTy) else none
  | _ => none

/-- `createTypeCast(prog, in, to)` — the variant of the cast engine that
begins with an equal-types check.  The Go pair return `(value.Value, error)`
is modelled as `Option Value × Option String`, and the current block is
threaded explicitly. -/
def createTypeCast (blk : BasicBlock) (inV : Value) (toTy : GType) :
    (Option Value × Option String) × BasicBlock :=
  let inType := inV.typeOf
  let fromInt := inType.isIntTy
  let fromFloat := inType.isFloatTy
  let toInt := toTy.isIntTy
  let toFloat := toTy.isFloatTy
  let inSize := typeSize inType
  let outSize := typeSize toTy
  if inType = toTy then ((some inV, none), blk)
  else
    match castConstInt inV toTy with
    | some c => ((some c, none), blk)
    | none =>
      match castConstFloat inV toTy with
      | some c => ((some c, none), blk)
      | none =>
        if toTy = .void then ((none, none), blk)
        else if inType.isPointerTy && toTy.isPointerTy then
          ((some (.bitcast inV toTy), none), blk.emit (.bitcast inV toTy))
        else if fromFloat && toInt then
          ((some (.fptosi inV toTy), none), blk.emit (.fptosi inV toTy))
        else if fromInt && toFloat then
          ((some (.sitofp inV toTy), none), blk.emit (.sitofp inV toTy))
        else if fromInt && toInt then
          if inSize < outSize then
            ((some (.sext inV toTy), none), blk.emit (.sext inV toTy))
          else if inSize = outSize then ((some inV, none), blk)
          else ((some (.trunc inV toTy), none), blk.emit (.trunc inV toTy))
        else if fromFloat && toFloat then
          if inSize < outSize then
            ((some (.fpext inV toTy), none), blk.emit (.fpext inV toTy))
          else if inSize = outSize then ((some inV, none), blk)
          else ((some (.fptrunc inV toTy), none), blk.emit (.fptrunc inV toTy))
        else if inType = toTy then ((some inV, none), blk)
        else if inType.isPointerTy && toInt then
          ((some (.ptrtoint inV toTy), none), blk.emit (.ptrtoint inV toTy))
        else if fromInt && toTy.isPointerTy then
          ((some (.inttoptr inV toTy), none), blk.emit (.inttoptr inV toTy))
        else
          ((none, some ("Failed to typecast type " ++ typeString inType
              ++ " to " ++ typeString toTy)), blk)

/-- `createTypeCast(prog, in, to)` — the coexisting variant of the cast
engine that lacks the leading equal-types check (its only equality test
sits after the numeric widening cases). -/
def createTypeCastV2 (blk : BasicBlock) (inV : Value) (toTy : GType) :
    (Option Value × Option String) × BasicBlock :=
  let inType := inV.typeOf
  let fromInt := inType.isIntTy
  let fromFloat := inType.isFloatTy
  let toInt := toTy.isIntTy
  let toFloat := toTy.isFloatTy
  let inSize := typeSize inType
  let outSize := typeSize toTy
  match castConstInt inV toTy with
  | some c => ((some c, none), blk)
  | none =>
    match castConstFloat inV toTy with
    | some c => ((some c, none), blk)
    | none =>
      if toTy = .void then ((none, none), blk)
      else if inType.isPointerTy && toTy.isPointerTy then
        ((some (.bitcast inV toTy), none), blk.emit (.bitcast inV toTy))
      else if fromFloat && toInt then
        ((some (.fptosi inV toTy), none), blk.emit (.fptosi inV toTy))
      else if fromInt && toFloat then
        ((some (.sitofp inV toTy), none), blk.emit (.sitofp inV toTy))
      else if fromInt && toInt then
        if inSize < outSize then
          ((some (.sext inV toTy), none), blk.emit (.sext inV toTy))
        else if inSize = outSize then ((some inV, none), blk)
        else ((some (.trunc inV toTy), none), blk.emit (.trunc inV toTy))
      else if fromFloat && toFloat then
        if inSize < outSize then
          ((some (.fpext inV toTy), none), blk.emit (.fpext inV toTy))
        else if inSize = outSize then ((some inV, none), blk)
        else ((some (.fptrunc inV toTy), none), blk.emit (.fptrunc inV toTy))
      else if inType = toTy then ((some inV, none), blk)
      else if inType.isPointerTy && toInt then
        ((some (.ptrtoint inV toTy), none), blk.emit (.ptrtoint inV toTy))
      else if fromInt && toTy.isPointerTy then
        ((some (.inttoptr inV toTy), none), blk.emit (.inttoptr inV toTy))
      else
        ((none, some ("Failed to typecast type " ++ typeString inType
            ++ " to " ++ typeString toTy)), blk)

/-- `UnaryNode.Codegen` (the variant that requires an addressable operand
for `&`).  `refAlloca` models the result of the `Reference` interface
assertion plus `node.Alloca(prog)` (`none` when the operand is not
addressable); `operandGen` is the `(value, error)` pair produced by lowering
the operand; the current block is threaded explicitly.  The Go code discards
the cast error in the `!` case (`opVal, _ :=`), so a failed cast would flow
a nil value onward, modelled by `Option.getD … .nilValue`. -/
def unaryCodegen (operator : String) (refAlloca : Option Value)
    (operandGen : Option Value × Option String) (blk : BasicBlock) :
    (Option Value × Option String) × BasicBlock :=
  if operator = ("&") then
    match refAlloca with
    | some a => ((some a, none), blk)
    | none => ((none, some ("'&' operator called on non-addressable operand")), blk)
  else
    match operandGen with
    | (_, some e) => ((none, some e), blk)
    | (none, none) => ((none, some ("nil operand")), blk)
    | (some v, none) =>
      if operator = ("-") then
        if v.typeOf.isFloatTy then
          ((some (.fsub (.constFloat 0 .double) v), none),
            blk.emit (.fsub (.constFloat 0 .double) v))
        else if v.typeOf.isIntTy then
          ((some (.sub (.constInt 0 .i64) v), none),
            blk.emit (.sub (.constInt 0 .i64) v))
        else ((none, some ("Unable to make a non integer/float into a negative")), blk)
      else if operator = ("!") then
        if !v.typeOf.isIntTy then
          ((none, some ("unable to '!' (not) type \"" ++ typeString v.typeOf ++ "\"")), blk)
        else
          let res := createTypeCast blk v .i1
          let opVal := res.1.1.getD .nilValue
          let blk := res.2
          let eqV := Value.icmp .ne opVal (.constInt 0 .i1)
          let blk := blk.emit eqV
          let invV := Value.xor eqV (.constInt 1 .i1)
          let blk := blk.emit invV
          let extV := Value.zext invV .i32
          let blk := blk.emit extV
          ((some extV, none), blk)
      else if operator = ("*") then
        if v.typeOf.isPointerTy then
          ((some (.load v), none), blk.emit (.load v))
        else ((none, some ("attempt to dereference a non-pointer variable")), blk)
      else ((some v, none), blk)

/-- An IR function inserted into the module; only its identity matters
for the compilation driver, so it is reduced to its symbol name. -/
structure IRFunc where
  fname : String
deriving DecidableEq

/-- A declared parameter of a function node (`node.Args[i].Type`): the
type-variable name of the declared type (`Name`), its resolution, and the
unknown marker (`Unknown`). -/
structure Param where
  tyName : String
  ty : GType
  unknown : Bool
deriving DecidableEq

/-- `FunctionNode`: name, parameters, variadic / no-mangle / external flags,
owning package, the compiled-variant cache (mangled name → IR function, where
the stored function may be Go-nil), the `Compiled` mark and the scratch
`NameCache` slot. -/
structure FunctionNode where
  name : String
  args : List Param
  variadic : Bool
  nomangle : Bool
  external : Bool
  package : Option String
  variants : List (String × Option IRFunc)
  compiled : Bool
  nameCache : String
deriving DecidableEq

/-- Modelled from the spec: a node of the scope tree (`Scope`, whose source
file is not part of the corpus) — optional parent link, package-name field,
and the type bindings registered in it.  Nodes live in an arena held by the
program state, and a scope value is an index into that arena, so that
pointer sharing and in-place mutation behave as in the source. -/
structure ScopeNode where
  parent : Option Nat
  packageName : String
  typeBindings : List (String × GType)
deriving DecidableEq

/-- Modelled from the spec: the compiler cursor that `GetFunction` saves via
`p.Compiler.Copy()` and restores before its successful return (`Compiler`,
whose source file is not part of the corpus); only its value identity
matters here. -/
structure Compiler where
  blockStack : List String
deriving DecidableEq

/-- The mutable `Program` context as consumed by the function compiler:
active package, active scope (arena index), the scope arena, the compiler
cursor and the function registry. -/
structure ProgState where
  package : Option String
  scope : Nat
  arena : List ScopeNode
  compiler : Compiler
  functions : List (String × FunctionNode)
deriving DecidableEq

/-- Go map lookup on an association list. -/
def lookupKey {κ α : Type} [DecidableEq κ] : List (κ × α) → κ → Option α
  | [], _ => none
  | (k, v) :: rest, key => if k = key then some v else lookupKey rest key

/-- Go map assignment on an association list: replace the binding if the key
is present, append it otherwise. -/
def setKey {κ α : Type} [DecidableEq κ] : List (κ × α) → κ → α → List (κ × α)
  | [], key, v => [(key, v)]
  | (k, w) :: rest, key, v =>
    if k = key then (k, v) :: rest else (k, w) :: setKey rest key v

/-- `Scope.GetRoot`: climb the parent chain to the root.  The recursion is
fuelled; callers pass the arena size, which bounds the chain length of any
well-formed arena. -/
def getRoot (arena : List ScopeNode) : Nat → Nat → Nat
  | 0, i => i
  | fuel + 1, i =>
    match arena.get? i with
    | none => i
    | some n =>
      match n.parent with
      | none => i
      | some par => getRoot arena fuel par

/-- In-place mutation `scope.PackageName = name` on the arena node `i`. -/
def setScopePackageName : List ScopeNode → Nat → String → List ScopeNode
  | [], _, _ => []
  | n :: rest, 0, s => { n with packageName := s } :: rest
  | n :: rest, i + 1, s => n :: setScopePackageName rest i s

/-- Reading the package-name field of the arena node `i`. -/
def scopePackageName (arena : List ScopeNode) (i : Nat) : String :=
  match arena.get? i with
  | some n => n.packageName
  | none => ""

/-- `scope.RegisterType(name, t, 0)`: append a type binding to the arena
node `i` (used for unknown-parameter binding). -/
def registerTypeInScope : List ScopeNode → Nat → String → GType → List ScopeNode
  | [], _, _, _ => []
  | n :: rest, 0, nm, t =>
    { n with typeBindings := n.typeBindings ++ [(nm, t)] } :: rest
  | n :: rest, i + 1, nm, t => n :: registerTypeInScope rest i nm t

/-- `Program.ScopeDown`: push a fresh child scope (the debug-metadata side
channel is omitted).  Modelled from the spec: the child inherits the
package-name field of its parent. -/
def ProgState.scopeDown (p : ProgState) : ProgState :=
  { p with
    arena := p.arena ++ [{ parent := some p.scope,
                           packageName := scopePackageName p.arena p.scope,
                           typeBindings := [] }],
    scope := p.arena.length }

/-- The re-rooting performed by `GetFunction` after a registry hit: set the
active scope to the root scope, and — when the node has an owning package —
make it the active package and stamp its name on the root scope; then push a
fresh child scope. -/
def primeState (p : ProgState) (node : FunctionNode) : ProgState :=
  let p1 := { p with scope := getRoot p.arena p.arena.length p.scope }
  let p2 :=
    match node.package with
    | some pkgName =>
      { p1 with package := some pkgName,
                arena := setScopePackageName p1.arena p1.scope pkgName }
    | none => p1
  p2.scopeDown

/-- The external collaborators invoked by `GetFunction`: the discovery
worker, `node.Arguments` (declared-parameter-type computation, which may
fail, and whose entries may be Go-nil), `node.Declare` and `node.Codegen`
(both returning a `(function, error)` pair while further mutating the
program state), and `node.MangledName`. -/
structure Externals where
  discover : ProgState → ProgState
  argumentsFn : FunctionNode → ProgState → Except String (List (Option GType))
  declareFn : FunctionNode → ProgState → (Option IRFunc × Option String) × ProgState
  codegenFn : FunctionNode → ProgState → (Option IRFunc × Option String) × ProgState
  mangledName : FunctionNode → List (Option GType) → String

/-- The arity check of `GetFunction`: performed only when the caller supplied
an argument-type list; a variadic function rejects only when fewer arguments
than declared parameters are supplied, a non-variadic function rejects any
difference. -/
def arityCheck (name : String) (node : FunctionNode)
    (rawTypes : List (Option GType)) (argTypes : Option (List GType)) :
    Option String :=
  match argTypes with
  | none => none
  | some given =>
    if rawTypes.length ≠ given.length then
      if node.variadic then
        if rawTypes.length > given.length then
          some ("variadic function " ++ name ++ " expects a minimum of "
            ++ toString rawTypes.length ++ " arguments. given: "
            ++ toString given.length)
        else none
      else
        some ("incorrect number of arguments passed to function \"" ++ name
          ++ "\". Expected " ++ toString rawTypes.length ++ ", given "
          ++ toString given.length)
    else none

/-- The parameter-type check and unknown-type binding loop of `GetFunction`,
over the zip of the declared raw types, the parameter nodes and the supplied
argument types (the source indexes all three by the same loop counter).  An
unknown parameter binds its type-variable name to the supplied type in the
current scope and contributes the supplied type to the effective parameter
types; a known parameter must be equal or loosely equal to the supplied type
and contributes the declared raw type. -/
def typeCheckLoop (fnName : String) :
    List (Option GType × Param × GType) → ProgState →
    Except String (List (Option GType)) × ProgState
  | [], p => (.ok [], p)
  | (expected, prm, given) :: rest, p =>
    let step : ProgState → Except String (List (Option GType)) × ProgState :=
      fun p0 =>
        if prm.unknown then
          let p1 := { p0 with
            arena := registerTypeInScope p0.arena p0.scope prm.tyName given }
          let (res, p2) := typeCheckLoop fnName rest p1
          (res.map fun l => some given :: l, p2)
        else
          let (res, p2) := typeCheckLoop fnName rest p0
          (res.map fun l => expected :: l, p2)
    match expected with
    | some e =>
      if e ≠ given ∧ typesAreLooselyEqual given e = false ∧ prm.unknown = false then
        (.error ("incorrect type passed into function " ++ fnName
          ++ ". given: \"" ++ typeString given ++ "\", expected: \""
          ++ typeString e ++ "\""), p)
      else step p
    | none => step p

/-- Restoring the saved program state before a return from `GetFunction`. -/
def restoreState (p : ProgState) (prevPkg : Option String) (prevScope : Nat)
    (prevComp : Compiler) : ProgState :=
  { p with package := prevPkg, scope := prevScope, compiler := prevComp }

/-- The mangling / variant-cache / declare / lower tail of `GetFunction`:
compute the variant key (the source name for a no-mangle function, otherwise
the mangling of the effective parameter types), return a cached variant if
present, otherwise declare the signature, mark the node compiled and — if it
is not external — lower the body; node mutations are written back to the
registry as they happen; the saved package/scope/compiler are restored on
the successful returns only. -/
def variantStage (ext : Externals) (name : String) (node : FunctionNode)
    (correctTypes : List (Option GType)) (prevPkg : Option String)
    (prevScope : Nat) (prevComp : Compiler) (p : ProgState) :
    Except String (Option IRFunc) × ProgState :=
  let nameCache :=
    if node.nomangle then node.name else ext.mangledName node correctTypes
  let node1 := { node with nameCache := nameCache }
  let p1 := { p with functions := setKey p.functions name node1 }
  match lookupKey node1.variants nameCache with
  | some f => (.ok f, restoreState p1 prevPkg prevScope prevComp)
  | none =>
    let ((df, derr), pd) := ext.declareFn node1 p1
    let node2 := { node1 with variants := setKey node1.variants nameCache df }
    let p2 := { pd with functions := setKey pd.functions name node2 }
    match derr with
    | some e => (.error e, p2)
    | none =>
      let node3 := { node2 with compiled := true }
      let p3 := { p2 with functions := setKey p2.functions name node3 }
      if node3.external then
        (.ok ((lookupKey node3.variants nameCache).bind id),
          restoreState p3 prevPkg prevScope prevComp)
      else
        let ((gf, gerr), pg) := ext.codegenFn node3 p3
        match gerr with
        | some e => (.error e, pg)
        | none =>
          let node4 := { node3 with variants := setKey node3.variants nameCache gf }
          let p4 := { pg with functions := setKey pg.functions name node4 }
          (.ok ((lookupKey node4.variants nameCache).bind id),
            restoreState p4 prevPkg prevScope prevComp)

/-- `Program.GetFunction(name, options)`: save the program state; return
`(nil, nil)` when the name is not registered; otherwise re-root the context
to the function's package, run discovery, compute the declared parameter
types, run the arity check, run the type check and unknown binding (only
when argument types were supplied and the function is not variadic), and
finish with the variant stage.  The supplied argument types model
`FunctionCompilationOptions.ArgTypes`, with `none` for a Go-nil slice. -/
def GetFunction (ext : Externals) (name : String)
    (argTypes : Option (List GType)) (p : ProgState) :
    Except String (Option IRFunc) × ProgState :=
  let previousPackage := p.package
  let previousScope := p.scope
  let previousCompiler := p.compiler
  match lookupKey p.functions name with
  | none => (.ok none, p)
  | some node =>
    let p1 := ext.discover (primeState p node)
    match ext.argumentsFn node p1 with
    | .error e => (.error e, p1)
    | .ok rawTypes =>
      match arityCheck name node rawTypes argTypes with
      | some e => (.error e, p1)
      | none =>
        let (tcRes, p2) :=
          match argTypes with
          | some given =>
            if node.variadic then ((Except.ok ([] : List (Option GType))), p1)
            else typeCheckLoop node.name (rawTypes.zip (node.args.zip given)) p1
          | none => ((Except.ok ([] : List (Option GType))), p1)
        match tcRes with
        | .error e => (.error e, p2)
        | .ok correctTypes =>
          variantStage ext name node correctTypes
            previousPackage previousScope previousCompiler p2

/-- An absolute, cleaned filesystem path, as its list of components
(`filepath.Join` appends a component, `filepath.Dir` drops the last one,
and the root `/` is the empty list). -/
abbrev Path := List String

/-- `filepath.Join(p, name)` for a single cleaned component. -/
def pathJoin (p : Path) (s : String) : Path := p ++ [s]

/-- `filepath.Dir` on a cleaned absolute path. -/
def pathDir (p : Path) : Path := p.dropLast

/-- `ReduceToDir`: a path that is not an existing directory (or cannot be
inspected) is reduced to its parent directory. -/
def ReduceToDir (isDir : Path → Bool) (p : Path) : Path :=
  if isDir p then p else pathDir p

/-- One step of the loop of `SearchPaths`, walking from the base toward the
filesystem root: at each step the `geodepkgs` entry of the current base is
recorded and the base moves to its parent directory; the first argument is
  the structural bound on the walk. -/
def geodepkgsChainAux : Nat → Path → List Path
  | 0, _ => []
  | _ + 1, [] => []
  | fuel + 1, s :: rest =>
    ((s :: rest) ++ [("geodepkgs")]) :: geodepkgsChainAux fuel ((s :: rest).dropLast)

/-- The `geodepkgs` directories produced by the loop of `SearchPaths`: the
walk shortens the base by one component per step, so its length bounds the
iteration count. -/
def geodepkgsChain (p : Path) : List Path := geodepkgsChainAux p.length p

/-- `SearchPaths(base)`: the base itself, the hard-coded system directory
`/usr/local/lib/geodelib`, then the `geodepkgs` chain. -/
def SearchPaths (base : Path) : List Path :=
  [base, [("usr"), ("local"), ("lib"), ("geodelib")]] ++ geodepkgsChain base

/-- Go's `strings.HasPrefix`, on the character lists of the strings. -/
def strHasPrefix (s pre : String) : Bool :=
  pre.data.isPrefixOf s.data

/-- Go's `strings.HasSuffix`, on the character lists of the strings. -/
def strHasSuffix (s suff : String) : Bool :=
  suff.data.isSuffixOf s.data

/-- The scan loop of `ResolveDepPath`: for each search path `sp` in order,
the candidate `Join(sp, filename)` is tested, and the first candidate that
is an existing directory is returned. -/
def firstDirHit (isDir : Path → Bool) (filename : String) :
    List Path → Option Path
  | [] => none
  | sp :: rest =>
    let abs := pathJoin sp filename
    if isDir abs then some abs else firstDirHit isDir filename rest

/-- `ResolveDepPath(base, filename)`: a `std:`-prefixed specifier is
stripped and resolved against the standard-library root (modelled from the
spec, `util.StdLibFile` not being part of the corpus); otherwise the search
paths are `Join(base, filename)` followed by `SearchPaths(base)`, each
candidate being the specifier joined onto the search path, and the fallback
is `Join(base, filename)`. -/
def ResolveDepPath (isDir : Path → Bool) (stdlibRoot : Path) (base : Path)
    (filename : String) : Path :=
  if strHasPrefix filename ("std:") then
    pathJoin stdlibRoot (filename.replace ("std:") (""))
  else
    match firstDirHit isDir filename (pathJoin base filename :: SearchPaths base) with
    | some abs => abs
    | none => pathJoin base filename

/-- Parsed AST nodes as far as the loader and driver inspect them: the
namespace declaration, dependency nodes (with C-linkage flag and path
list), function, class and global declarations, and anything else. -/
inductive PNode where
  | namespaceNode (name : String)
  | dependencyNode (clinkage : Bool) (paths : List String)
  | functionNode (name : String)
  | classNode (name : String)
  | globalDeclNode (name : String)
  | otherNode
deriving DecidableEq

/-- `NamespaceFromNodes`: the name of the first namespace node, if any. -/
def NamespaceFromNodes : List PNode → Option String
  | [] => none
  | .namespaceNode n :: _ => some n
  | _ :: rest => NamespaceFromNodes rest

/-- A character matched by the character class of the namespace regular
expression `[a-z_]+`. -/
def isLowerOrUnderscore (c : Char) : Bool :=
  (('a' ≤ c) && (c ≤ 'z')) || c = ('_')

/-- Go's `regexp.MatchString` for the unanchored pattern `[a-z_]+`: it
reports whether the pattern matches anywhere in the name, i.e. whether some
character of the name is a lowercase letter or an underscore. -/
def regexpMatchString (name : String) : Bool :=
  name.data.any isLowerOrUnderscore

/-- Modelled from the spec: a well-formed namespace name ("Namespace names
must match `[a-z_]+`", "Namespaces can only contain lowercase letters and
underscores") — nonempty and consisting solely of such characters. -/
def specNamespaceValid (name : String) : Bool :=
  !name.data.isEmpty && name.data.all isLowerOrUnderscore

/-- `Package`: namespace name, attached files, their parsed nodes and the
resolved dependency directories (`NewPackage` itself is not part of the
corpus; a fresh package starts with the creating file's data, per the
spec). -/
structure PackageM where
  name : String
  files : List Path
  nodes : List PNode
  dependencyPaths : List Path
deriving DecidableEq

/-- The loader-owned part of the `Program`: the parsed-file set, the package
map (keyed as in the source) and the C-linkage list. -/
structure LoaderState where
  parsedFiles : List Path
  packages : List (Path × PackageM)
  clinkages : List Path
deriving DecidableEq

/-- The filesystem and external parser as the loader consumes them: existing
directories, the parse result of each source file (`ReadFile` + `Lex` +
`Parse`), directory listings, and the standard-library root. -/
structure FileSystem where
  isDir : Path → Bool
  contents : Path → Option (List PNode)
  listing : Path → List String
  stdlibRoot : Path

/-- `Program.CanParse`: a file can be parsed unless it is already in the
parsed-file set. -/
def CanParse (st : LoaderState) (file : Path) : Bool :=
  decide (file ∉ st.parsedFiles)

/-- `Program.ParseDir`: the `.g` files of the directory listing that are not
yet parsed, joined onto the directory. -/
def parseDirFiles (fs : FileSystem) (st : LoaderState) (dir : Path) : List Path :=
  ((fs.listing dir).filter (fun n => strHasSuffix n (".g"))).filterMap
    (fun n =>
      let filename := pathJoin dir n
      if CanParse st filename then some filename else none)

/-- Appends a resolved dependency directory to the package stored under
`path` (the in-place `newPkg.DependencyPaths = append(…)`). -/
def appendDepPath (st : LoaderState) (path : Path) (dep : Path) : LoaderState :=
  { st with packages :=
      match lookupKey st.packages path with
      | some pkg =>
        setKey st.packages path
          { pkg with dependencyPaths := pkg.dependencyPaths ++ [dep] }
      | none => st.packages }

mutual

/-- `Program.ParsePath`: reduce the argument to a directory, list its
unparsed `.g` files and parse each (a missing directory is fatal).  All
loader functions are fuelled: recursion through the dependency graph
terminates in the source via the parsed-file set, and fuel plays that role
here; exhausted fuel returns the state unchanged. -/
def parsePath (fs : FileSystem) : Nat → LoaderState → Path → Except String LoaderState
  | 0, st, _ => .ok st
  | fuel + 1, st, dir =>
    let d1 := if fs.isDir dir then dir else pathDir dir
    let d2 := ReduceToDir fs.isDir d1
    if fs.isDir d2 then
      parseFiles fs fuel st (parseDirFiles fs st d2)
    else .error ("Error parsing folder for geode source files")

/-- The file loop of `ParsePath`. -/
def parseFiles (fs : FileSystem) : Nat → LoaderState → List Path → Except String LoaderState
  | 0, st, _ => .ok st
  | _ + 1, st, [] => .ok st
  | fuel + 1, st, f :: rest =>
    match parseFile fs fuel st f with
    | .error e => .error e
    | .ok st1 => parseFiles fs fuel st1 rest

/-- `Program.ParseFile`: read and parse the file contents (an unreadable
file is fatal), then hand the node list to `ParseText`. -/
def parseFile (fs : FileSystem) : Nat → LoaderState → Path → Except String LoaderState
  | 0, st, _ => .ok st
  | fuel + 1, st, path =>
    match fs.contents path with
    | none => .error ("could not read source file")
    | some nodes => parseText fs fuel st nodes path

/-- `Program.ParseText`: mark the path parsed; find and validate the
namespace (a missing namespace is fatal; an invalid one — per the source's
unanchored regular-expression check — is reported through the logger, whose
source is not part of the corpus and which is modelled from the spec's
error policy as fatal); create a fresh package, store it in the package map
under the file's path when that key is absent, then walk the dependency
nodes. -/
def parseText (fs : FileSystem) : Nat → LoaderState → List PNode → Path → Except String LoaderState
  | 0, st, _, _ => .ok st
  | fuel + 1, st, nodes, path =>
    let st1 := { st with parsedFiles := st.parsedFiles ++ [path] }
    match NamespaceFromNodes nodes with
    | none => .error ("Unable to decide on namespace for file")
    | some name =>
      if !regexpMatchString name then
        .error ("Invalid Namespace name \"" ++ name
          ++ "\". Namespaces can only contain lowercase letters and underscores")
      else
        let newPkg : PackageM :=
          { name := name, files := [path], nodes := nodes, dependencyPaths := [] }
        let inserted := (lookupKey st1.packages path).isNone
        let st2 :=
          if inserted then { st1 with packages := st1.packages ++ [(path, newPkg)] }
          else st1
        depLoop fs fuel st2 path inserted
          (nodes.filter fun n =>
            match n with
            | .dependencyNode _ _ => true
            | _ => false)

/-- The dependency-node loop of `ParseText`. -/
def depLoop (fs : FileSystem) : Nat → LoaderState → Path → Bool → List PNode → Except String LoaderState
  | 0, st, _, _, _ => .ok st
  | _ + 1, st, _, _, [] => .ok st
  | fuel + 1, st, path, inserted, n :: rest =>
    match n with
    | .dependencyNode clinkage paths =>
      match depPaths fs fuel st path inserted clinkage paths with
      | .error e => .error e
      | .ok st1 => depLoop fs fuel st1 path inserted rest
    | _ => depLoop fs fuel st path inserted rest

/-- The per-path loop inside a dependency node: a C-linkage dependency is
resolved and appended to the C-linkage list; a source dependency records the
resolved directory on the creating file's package (when that package was
freshly inserted) and is then parsed recursively. -/
def depPaths (fs : FileSystem) : Nat → LoaderState → Path → Bool → Bool → List String → Except String LoaderState
  | 0, st, _, _, _, _ => .ok st
  | _ + 1, st, _, _, _, [] => .ok st
  | fuel + 1, st, path, inserted, clinkage, dp :: rest =>
    let base := pathDir path
    if clinkage then
      let st1 := { st with clinkages :=
        st.clinkages ++ [ResolveDepPath fs.isDir fs.stdlibRoot base dp] }
      depPaths fs fuel st1 path inserted clinkage rest
    else
      let resolved :=
        ReduceToDir fs.isDir (ResolveDepPath fs.isDir fs.stdlibRoot base dp)
      let st1 := if inserted then appendDepPath st path resolved else st
      match parseDep fs fuel st1 base dp with
      | .error e => .error e
      | .ok st2 => depPaths fs fuel st2 path inserted clinkage rest

/-- `Program.ParseDep`: resolve the dependency and parse the resulting
directory unless it is already in the parsed-file set. -/
def parseDep (fs : FileSystem) : Nat → LoaderState → Path → String → Except String LoaderState
  | 0, st, _, _ => .ok st
  | fuel + 1, st, base, dp =>
    let depPath := ResolveDepPath fs.isDir fs.stdlibRoot base dp
    if CanParse st depPath then parsePath fs fuel st depPath else .ok st

end

/-- The registry key computed by `Congeal` for a function node: the
package-qualified name, unless the function is named `main` or its package
is named `runtime`, in which case the unqualified name is used. -/
def congealFunctionKey (pkgName fnName : String) : String :=
  let name := pkgName ++ (":") ++ fnName
  if fnName = ("main") || pkgName = ("runtime") then fnName else name

/-- The registration of one node inside `Congeal`: a function node is
registered under its computed key, the value recording the function's name
and (as `fn.Package = pkg`) its owning package name; other nodes register
nothing here. -/
def congealRegisterNode (pkgName : String)
    (reg : List (String × (String × String))) :
    PNode → List (String × (String × String))
  | .functionNode fname =>
    setKey reg (congealFunctionKey pkgName fname) (fname, pkgName)
  | _ => reg

/-- The function-registration pass of one package inside `Congeal`. -/
def congealRegisterPkg (reg : List (String × (String × String)))
    (pkg : PackageM) : List (String × (String × String)) :=
  pkg.nodes.foldl (congealRegisterNode pkg.name) reg

/-- The function registry built by `Congeal` over all packages (the class
registry, built alongside it, is not modelled). -/
def congealRegistry (pkgs : List PackageM) : List (String × (String × String)) :=
  pkgs.foldl congealRegisterPkg []

/-- Modelled from the spec for comparison with the source: the claim's
reading of the resolver — try, in order, the candidates base/specifier,
base itself, `/usr/local/lib/geodelib`, then each `geodepkgs` directory
walking from base toward the root; return the first candidate that is an
existing directory, and base/specifier when none is. -/
def resolveDepPathClaim (isDir : Path → Bool) (base : Path) (f : String) : Path :=
  ((pathJoin base f :: SearchPaths base).find? isDir).getD (pathJoin base f)

/-- A concrete filesystem: the directory `/a` holds two source files that
both declare the namespace `m`. -/
def sampleFS : FileSystem :=
  { isDir := fun p => decide (p = [("a")]),
    contents := fun p =>
      if p = [("a"), ("f1.g")] then some [.namespaceNode ("m"), .functionNode ("f")]
      else if p = [("a"), ("f2.g")] then some [.namespaceNode ("m"), .functionNode ("g")]
      else none,
    listing := fun p => if p = [("a")] then [("f1.g"), ("f2.g")] else [],
    stdlibRoot := [("stdlib")] }

/-- The loader state of a fresh `Program`. -/
def emptyLoaderState : LoaderState :=
  { parsedFiles := [], packages := [], clinkages := [] }

/-- Concrete packages for exercising the `Congeal` registry: package `m`
with functions `f` and `main`, and package `runtime` with function `r`. -/
def samplePkgs : List PackageM :=
  [{ name := ("m"), files := [],
     nodes := [.functionNode ("f"), .functionNode ("main")], dependencyPaths := [] },
   { name := ("runtime"), files := [],
     nodes := [.functionNode ("r")], dependencyPaths := [] }]

/-- A concrete registered function node used to exercise `GetFunction`:
`func f(int) int` in package `m`. -/
def sampleFnNode : FunctionNode :=
  { name := ("f"), args := [{ tyName := ("int"), ty := .i32, unknown := false }],
    variadic := false, nomangle := false, external := false,
    package := some ("m"), variants := [], compiled := false, nameCache := ("") }

/-- Concrete external collaborators for exercising `GetFunction`: discovery
is a no-op, the declared parameter types resolve to `[i32]`, declaration and
lowering succeed with the function `m_f`, and mangling is constant. -/
def sampleExternals : Externals :=
  { discover := id,
    argumentsFn := fun _ _ => .ok [some .i32],
    declareFn := fun _ p => ((some ⟨("m_f")⟩, none), p),
    codegenFn := fun _ p => ((some ⟨("m_f")⟩, none), p),
    mangledName := fun _ _ => ("m_f") }

/-- A concrete program state whose registry holds `sampleFnNode` under
`m:f`, with active package `outer` and the root scope active. -/
def sampleProgState : ProgState :=
  { package := some ("outer"), scope := 0,
    arena := [{ parent := none, packageName := ("outer"), typeBindings := [] }],
    compiler := ⟨[]⟩, functions := [(("m:f"), sampleFnNode)] }

/-! ### Helper lemmas -/

theorem castConstInt_none_of_not_int (v : Value) (toTy : GType)
    (h : toTy.isIntTy = false) : castConstInt v toTy = none := by
  cases v <;> simp [castConstInt, h]

theorem castConstFloat_none_of_not_float (v : Value) (toTy : GType)
    (h : toTy.isFloatTy = false) : castConstFloat v toTy = none := by
  cases v <;> simp [castConstFloat, h]

theorem castConstInt_cases (v : Value) (toTy : GType) :
    castConstInt v toTy = none ∨
      ∃ n, v = Value.constInt n v.typeOf ∧ toTy.isIntTy = true ∧
        castConstInt v toTy = some (Value.constInt n toTy) := by
  cases v <;> try exact Or.inl rfl
  case constInt n t =>
    by_cases h : toTy.isIntTy = true
    · exact Or.inr ⟨n, rfl, h, by simp [castConstInt, h]⟩
    · exact Or.inl (by simp [castConstInt, h])

theorem castConstFloat_cases (v : Value) (toTy : GType) :
    castConstFloat v toTy = none ∨
      ∃ n, v = Value.constFloat n v.typeOf ∧ toTy.isFloatTy = true ∧
        castConstFloat v toTy = some (Value.constFloat n toTy) := by
  cases v <;> try exact Or.inl rfl
  case constFloat n t =>
    by_cases h : toTy.isFloatTy = true
    · exact Or.inr ⟨n, rfl, h, by simp [castConstFloat, h]⟩
    · exact Or.inl (by simp [castConstFloat, h])

theorem createTypeCast_toI1_succeeds (blk : BasicBlock) (v : Value)
    (h : v.typeOf.isIntTy = true) :
    ∃ w b1, createTypeCast blk v .i1 = ((some w, none), b1) := by
  by_cases he : v.typeOf = GType.i1
  · exact ⟨v, blk, by simp [createTypeCast, he]⟩
  · rcases castConstInt_cases v .i1 with h1 | ⟨n, hn, _, h1⟩
    · have h2 : castConstFloat v GType.i1 = none :=
        castConstFloat_none_of_not_float v _ rfl
      rcases ht : v.typeOf with _ | _ | _ | _ | _ | _ | _ | e | s
      · exact absurd ht he
      · exact ⟨.trunc v .i1, blk.emit (.trunc v .i1), by
          simp [createTypeCast, h1, h2, ht, GType.isPointerTy, GType.isIntTy,
            GType.isFloatTy, typeSize]⟩
      · exact ⟨.trunc v .i1, blk.emit (.trunc v .i1), by
          simp [createTypeCast, h1, h2, ht, GType.isPointerTy, GType.isIntTy,
            GType.isFloatTy, typeSize]⟩
      · exact ⟨.trunc v .i1, blk.emit (.trunc v .i1), by
          simp [createTypeCast, h1, h2, ht, GType.isPointerTy, GType.isIntTy,
            GType.isFloatTy, typeSize]⟩
      · exact ⟨.trunc v .i1, blk.emit (.trunc v .i1), by
          simp [createTypeCast, h1, h2, ht, GType.isPointerTy, GType.isIntTy,
            GType.isFloatTy, typeSize]⟩
      · rw [ht] at h; exact absurd h (by decide)
      · rw [ht] at h; exact absurd h (by decide)
      · rw [ht] at h; simp [GType.isIntTy] at h
      · rw [ht] at h; simp [GType.isIntTy] at h
    · exact ⟨.constInt n .i1, blk, by simp [createTypeCast, he, h1]⟩

/-! ### Claim theorems: basic-block termination and the cast engine -/

/-- C2: the `branchIfNoTerminator` helper appends an unconditional branch
from `b` to `t` if and only if the terminator slot of `b` is empty at the
time of the call; when the slot is occupied, `b` is left entirely
unchanged. -/
theorem branchIfNoTerminator_spec (b t : BasicBlock) :
    (b.term = none →
      branchIfNoTerminator b t = { b with term := some (Terminator.br t.name) })
    ∧ (b.term ≠ none → branchIfNoTerminator b t = b) := by
  constructor
  · intro h; simp [branchIfNoTerminator, h]
  · intro h
    cases hb : b.term with
    | none => exact absurd hb h
    | some tm => simp [branchIfNoTerminator, hb]

theorem branchIfNoTerminator_spec_witness :
    (branchIfNoTerminator ⟨("a"), [], none⟩ ⟨("b"), [], none⟩
        = { name := ("a"), insts := [], term := some (Terminator.br ("b")) })
    ∧ (branchIfNoTerminator ⟨("a"), [], some (Terminator.ret none)⟩ ⟨("b"), [], none⟩
        = ⟨("a"), [], some (Terminator.ret none)⟩) :=
  ⟨(branchIfNoTerminator_spec _ _).1 rfl,
   (branchIfNoTerminator_spec _ _).2 (by simp)⟩

/-- C3 (counterexample): in the coexisting cast-engine variant that lacks
the leading equal-types check, a pointer-typed value cast to its own type
is not returned unchanged — a bitcast instruction is emitted into the block
and returned instead. -/
theorem createTypeCastV2_identity_cex :
    (Value.param ("x") (.ptr .i8)).typeOf = GType.ptr .i8
    ∧ createTypeCastV2 ⟨("entry"), [], none⟩ (.param ("x") (.ptr .i8)) (.ptr .i8)
        = ((some (.bitcast (.param ("x") (.ptr .i8)) (.ptr .i8)), none),
           ⟨("entry"), [.bitcast (.param ("x") (.ptr .i8)) (.ptr .i8)], none⟩)
    ∧ Value.bitcast (.param ("x") (.ptr .i8)) (.ptr .i8)
        ≠ Value.param ("x") (.ptr .i8) := by
  refine ⟨rfl, by decide, by decide⟩

/-- C3 (amended): when the input value's type equals the target type, the
cast-engine variant with the leading equality check returns the input
itself with no emitted instruction, for every input shape; the variant
without that check does the same except that a pointer-typed input is
re-emitted as a bitcast instruction and a void-typed input yields the nil
value. -/
theorem createTypeCast_identity (blk : BasicBlock) (v : Value) (T : GType)
    (h : v.typeOf = T) :
    createTypeCast blk v T = ((some v, none), blk)
    ∧ (T = .void → createTypeCastV2 blk v T = ((none, none), blk))
    ∧ (T.isPointerTy = true →
        createTypeCastV2 blk v T
          = ((some (.bitcast v T), none), blk.emit (.bitcast v T)))
    ∧ (T ≠ .void → T.isPointerTy = false →
        createTypeCastV2 blk v T = ((some v, none), blk)) := by
  refine ⟨by simp [createTypeCast, h], ?_, ?_, ?_⟩
  · intro hv
    subst hv
    have h1 : castConstInt v GType.void = none :=
      castConstInt_none_of_not_int v _ rfl
    have h2 : castConstFloat v GType.void = none :=
      castConstFloat_none_of_not_float v _ rfl
    simp [createTypeCastV2, h1, h2]
  · intro hp
    cases T with
    | ptr e =>
      have h1 : castConstInt v (GType.ptr e) = none :=
        castConstInt_none_of_not_int v _ rfl
      have h2 : castConstFloat v (GType.ptr e) = none :=
        castConstFloat_none_of_not_float v _ rfl
      simp [createTypeCastV2, h1, h2, h, GType.isPointerTy]
    | i1 => simp [GType.isPointerTy] at hp
    | i8 => simp [GType.isPointerTy] at hp
    | i16 => simp [GType.isPointerTy] at hp
    | i32 => simp [GType.isPointerTy] at hp
    | i64 => simp [GType.isPointerTy] at hp
    | double => simp [GType.isPointerTy] at hp
    | void => simp [GType.isPointerTy] at hp
    | named s => simp [GType.isPointerTy] at hp
  · intro hv hp
    rcases castConstInt_cases v T with h1 | ⟨n, hn, hint, h1⟩
    · rcases castConstFloat_cases v T with h2 | ⟨n, hn, hfl, h2⟩
      · cases T with
        | void => exact absurd rfl hv
        | ptr e => simp [GType.isPointerTy] at hp
        | i1 =>
          simp [createTypeCastV2, h1, h2, h, GType.isPointerTy, GType.isIntTy,
            GType.isFloatTy]
        | i8 =>
          simp [createTypeCastV2, h1, h2, h, GType.isPointerTy, GType.isIntTy,
            GType.isFloatTy]
        | i16 =>
          simp [createTypeCastV2, h1, h2, h, GType.isPointerTy, GType.isIntTy,
            GType.isFloatTy]
        | i32 =>
          simp [createTypeCastV2, h1, h2, h, GType.isPointerTy, GType.isIntTy,
            GType.isFloatTy]
        | i64 =>
          simp [createTypeCastV2, h1, h2, h, GType.isPointerTy, GType.isIntTy,
            GType.isFloatTy]
        | double =>
          simp [createTypeCastV2, h1, h2, h, GType.isPointerTy, GType.isIntTy,
            GType.isFloatTy]
        | named s =>
          simp [createTypeCastV2, h1, h2, h, GType.isPointerTy, GType.isIntTy,
            GType.isFloatTy]
      · have hv2 : Value.constFloat n T = v := by rw [hn, h]
        have hii : T.isIntTy = false := by
          cases T <;> simp_all [GType.isIntTy, GType.isFloatTy]
        have h1v : castConstInt v T = none := castConstInt_none_of_not_int v _ hii
        simp [createTypeCastV2, h1v, h2, hv2]
    · have hv2 : Value.constInt n T = v := by rw [hn, h]
      simp [createTypeCastV2, h1, hv2]

theorem createTypeCast_identity_witness :
    ((Value.constInt 3 .i32).typeOf = GType.i32
      ∧ createTypeCast ⟨("e"), [], none⟩ (.constInt 3 .i32) .i32
          = ((some (.constInt 3 .i32), none), ⟨("e"), [], none⟩))
    ∧ ((Value.param ("y") (.named ("RGB"))).typeOf = GType.named ("RGB")
      ∧ createTypeCastV2 ⟨("e"), [], none⟩ (.param ("y") (.named ("RGB"))) (.named ("RGB"))
          = ((some (.param ("y") (.named ("RGB"))), none), ⟨("e"), [], none⟩)) :=
  ⟨⟨rfl, (createTypeCast_identity _ _ _ rfl).1⟩,
   ⟨rfl, (createTypeCast_identity ⟨("e"), [], none⟩ (.param ("y") (.named ("RGB")))
      (.named ("RGB")) rfl).2.2.2 (by decide) (by decide)⟩⟩

/-- C9: for an integer-typed operand, lowering unary `!` performs the cast
of the operand to `i1` and then emits, in order, an icmp not-equal against
the false constant, an xor of that comparison with the true constant, and a
zero-extension of the xor to `i32`, returning the `i32` value; for a
non-integer operand it fails with the not-operator error and emits no such
sequence. -/
theorem unaryCodegen_not_spec (blk : BasicBlock) (v : Value) :
    (v.typeOf.isIntTy = true →
      ∃ w b1, createTypeCast blk v .i1 = ((some w, none), b1)
        ∧ unaryCodegen ("!") none (some v, none) blk
          = ((some (.zext (.xor (.icmp .ne w (.constInt 0 .i1)) (.constInt 1 .i1)) .i32),
              none),
             { b1 with insts := b1.insts ++
                 [Value.icmp .ne w (.constInt 0 .i1),
                  Value.xor (.icmp .ne w (.constInt 0 .i1)) (.constInt 1 .i1),
                  Value.zext (.xor (.icmp .ne w (.constInt 0 .i1)) (.constInt 1 .i1)) .i32] }))
    ∧ (v.typeOf.isIntTy = false →
      unaryCodegen ("!") none (some v, none) blk
        = ((none, some ("unable to '!' (not) type \"" ++ typeString v.typeOf ++ "\"")),
           blk)) := by
  constructor
  · intro h
    obtain ⟨w, b1, hres⟩ := createTypeCast_toI1_succeeds blk v h
    refine ⟨w, b1, hres, ?_⟩
    simp [unaryCodegen, h, hres, BasicBlock.emit]
  · intro h
    simp [unaryCodegen, h]

theorem unaryCodegen_not_spec_witness :
    (∃ w b1,
        createTypeCast ⟨("b"), [], none⟩ (.param ("p") .i32) .i1 = ((some w, none), b1)
        ∧ unaryCodegen ("!") none (some (.param ("p") .i32), none) ⟨("b"), [], none⟩
          = ((some (.zext (.xor (.icmp .ne w (.constInt 0 .i1)) (.constInt 1 .i1)) .i32),
              none),
             { b1 with insts := b1.insts ++
                 [Value.icmp .ne w (.constInt 0 .i1),
                  Value.xor (.icmp .ne w (.constInt 0 .i1)) (.constInt 1 .i1),
                  Value.zext (.xor (.icmp .ne w (.constInt 0 .i1)) (.constInt 1 .i1)) .i32] }))
    ∧ unaryCodegen ("!") none (some (.param ("q") .double), none) ⟨("b"), [], none⟩
        = ((none, some ("unable to '!' (not) type \"double\"")), ⟨("b"), [], none⟩) :=
  ⟨(unaryCodegen_not_spec _ _).1 (by decide),
   (unaryCodegen_not_spec ⟨("b"), [], none⟩ (.param ("q") .double)).2 (by decide)⟩

/-! ### Claim theorems: the function compiler -/

theorem variantStage_restores (ext : Externals) (name : String)
    (node : FunctionNode) (cts : List (Option GType)) (prevPkg : Option String)
    (prevScope : Nat) (prevComp : Compiler) (p : ProgState)
    (res : Option IRFunc) (s : ProgState)
    (h : variantStage ext name node cts prevPkg prevScope prevComp p = (.ok res, s)) :
    s.package = prevPkg ∧ s.scope = prevScope ∧ s.compiler = prevComp := by
  unfold variantStage restoreState at h
  dsimp only at h
  repeat' split at h
  all_goals try exact Except.noConfusion (congrArg Prod.fst h)
  all_goals
    obtain ⟨h1, h2⟩ := Prod.mk.injEq .. ▸ h
  all_goals subst h2
  all_goals exact ⟨rfl, rfl, rfl⟩

/-- C1 (counterexample): `GetFunction` on a name present in the registry can
return with the program state not restored — an arity-mismatch error return
leaves the re-rooted active package and the freshly pushed scope in place,
differing from their values at entry. -/
theorem GetFunction_restore_cex :
    (GetFunction sampleExternals ("m:f") (some []) sampleProgState).1
        = .error ("incorrect number of arguments passed to function \"m:f\". Expected 1, given 0")
    ∧ (GetFunction sampleExternals ("m:f") (some []) sampleProgState).2.package
        ≠ sampleProgState.package
    ∧ (GetFunction sampleExternals ("m:f") (some []) sampleProgState).2.scope
        ≠ sampleProgState.scope := by
  refine ⟨?_, by decide, by decide⟩
  rfl

/-- C1 (amended): on every non-error return of `GetFunction` — the nil
result for an unregistered name and the successful result for a registered
one — the program's active package, active scope and compiler cursor equal
their values at entry (the not-found return leaves the state untouched; the
successful return restores the saved values).  Error returns do not
restore. -/
theorem GetFunction_restores_on_ok (ext : Externals) (name : String)
    (argTypes : Option (List GType)) (p : ProgState)
    (res : Option IRFunc) (s : ProgState)
    (h : GetFunction ext name argTypes p = (.ok res, s)) :
    s.package = p.package ∧ s.scope = p.scope ∧ s.compiler = p.compiler := by
  unfold GetFunction at h
  dsimp only at h
  repeat' split at h
  all_goals try exact Except.noConfusion (congrArg Prod.fst h)
  all_goals
    first
      | exact variantStage_restores _ _ _ _ _ _ _ _ _ _ h
      | (obtain ⟨h1, h2⟩ := Prod.mk.injEq .. ▸ h
         subst h2
         exact ⟨rfl, rfl, rfl⟩)

theorem GetFunction_restores_on_ok_witness :
    GetFunction sampleExternals ("m:f") (some [.i32]) sampleProgState
        = ((.ok (some ⟨("m_f")⟩) : Except String (Option IRFunc)),
           (GetFunction sampleExternals ("m:f") (some [.i32]) sampleProgState).2)
    ∧ ((GetFunction sampleExternals ("m:f") (some [.i32]) sampleProgState).2.package
          = sampleProgState.package
      ∧ (GetFunction sampleExternals ("m:f") (some [.i32]) sampleProgState).2.scope
          = sampleProgState.scope
      ∧ (GetFunction sampleExternals ("m:f") (some [.i32]) sampleProgState).2.compiler
          = sampleProgState.compiler) :=
  ⟨by decide,
   GetFunction_restores_on_ok sampleExternals ("m:f") (some [.i32]) sampleProgState
     (some ⟨("m_f")⟩) _ (by decide)⟩

/-- C6: with `d` declared parameter types and `n` supplied argument types,
`GetFunction` on a variadic registered function accepts the arity exactly
when `n ≥ d`, and for `n < d` fails with the exact message
`variadic function <name> expects a minimum of <d> arguments. given: <n>`;
a non-variadic registered function accepts exactly when `n = d`, any other
`n` failing with the wrong-number-of-arguments error. -/
theorem GetFunction_arity_spec (ext : Externals) (name : String) (p : ProgState)
    (node : FunctionNode) (rawTypes : List (Option GType)) (args : List GType)
    (d n : Nat)
    (hlk : lookupKey p.functions name = some node)
    (hargs : ext.argumentsFn node (ext.discover (primeState p node)) = .ok rawTypes)
    (hd : rawTypes.length = d) (hn : args.length = n) :
    (node.variadic = true →
      ((arityCheck name node rawTypes (some args) = none) ↔ d ≤ n)
      ∧ (n < d →
        GetFunction ext name (some args) p
          = (.error ("variadic function " ++ name ++ " expects a minimum of "
              ++ toString d ++ " arguments. given: " ++ toString n),
             ext.discover (primeState p node))))
    ∧ (node.variadic = false →
      ((arityCheck name node rawTypes (some args) = none) ↔ n = d)
      ∧ (n ≠ d →
        GetFunction ext name (some args) p
          = (.error ("incorrect number of arguments passed to function \""
              ++ name ++ "\". Expected " ++ toString d ++ ", given "
              ++ toString n),
             ext.discover (primeState p node)))) := by
  subst hd hn
  constructor
  · intro hv
    constructor
    · by_cases hne : rawTypes.length = args.length
      · simp [arityCheck, hne] <;> omega
      · by_cases hgt : rawTypes.length > args.length
        · simp [arityCheck, hne, hv, hgt] <;> omega
        · simp [arityCheck, hne, hv, hgt] <;> omega
    · intro hlt
      have hc : arityCheck name node rawTypes (some args)
          = some ("variadic function " ++ name ++ " expects a minimum of "
              ++ toString rawTypes.length ++ " arguments. given: "
              ++ toString args.length) := by
        have hne : rawTypes.length ≠ args.length := by omega
        simp [arityCheck, hne, hv, hlt]
      unfold GetFunction
      dsimp only
      rw [hlk]
      dsimp only
      rw [hargs]
      dsimp only
      rw [hc]
  · intro hv
    constructor
    · by_cases hne : rawTypes.length = args.length
      · simp [arityCheck, hne] <;> omega
      · simp [arityCheck, hne, hv] <;> omega
    · intro hneq
      have hc : arityCheck name node rawTypes (some args)
          = some ("incorrect number of arguments passed to function \""
              ++ name ++ "\". Expected " ++ toString rawTypes.length
              ++ ", given " ++ toString args.length) := by
        have hne : rawTypes.length ≠ args.length := by omega
        simp [arityCheck, hne, hv]
      unfold GetFunction
      dsimp only
      rw [hlk]
      dsimp only
      rw [hargs]
      dsimp only
      rw [hc]

theorem GetFunction_arity_spec_witness :
    ((arityCheck ("g") { sampleFnNode with variadic := true } [some .i32] (some [])
        = some ("variadic function g expects a minimum of 1 arguments. given: 0"))
      ∧ (arityCheck ("g") { sampleFnNode with variadic := true } [some .i32]
          (some [.i32, .i64]) = none))
    ∧ GetFunction sampleExternals ("m:f") (some []) sampleProgState
        = (.error ("incorrect number of arguments passed to function \""
            ++ ("m:f") ++ "\". Expected " ++ toString 1 ++ ", given "
            ++ toString 0),
           sampleExternals.discover (primeState sampleProgState sampleFnNode)) := by
  refine ⟨⟨by decide, by decide⟩, ?_⟩
  have h := (GetFunction_arity_spec sampleExternals ("m:f") sampleProgState
    sampleFnNode [some .i32] [] 1 0 (by decide) (by decide) (by decide)
    (by decide)).2 (by decide)
  exact h.2 (by decide)

/-- C10: when `GetFunction` is called with a nil argument-type list, the
arity check is vacuous and neither the parameter-type check nor
unknown-type binding runs: an arguments-computation failure propagates
unchanged, and otherwise the call goes straight to the variant stage with
an empty effective-parameter-type list (so the variant key is mangled from
the empty list when the node is not no-mangle). -/
theorem GetFunction_nil_argTypes (ext : Externals) (name : String)
    (p : ProgState) (node : FunctionNode)
    (hlk : lookupKey p.functions name = some node) :
    (∀ rawTypes, arityCheck name node rawTypes none = none)
    ∧ (∀ e, ext.argumentsFn node (ext.discover (primeState p node)) = .error e →
        GetFunction ext name none p = (.error e, ext.discover (primeState p node)))
    ∧ (∀ rawTypes,
        ext.argumentsFn node (ext.discover (primeState p node)) = .ok rawTypes →
        GetFunction ext name none p
          = variantStage ext name node [] p.package p.scope p.compiler
              (ext.discover (primeState p node))) := by
  refine ⟨fun _ => rfl, ?_, ?_⟩
  · intro e he
    unfold GetFunction
    dsimp only
    rw [hlk]
    dsimp only
    rw [he]
  · intro rawTypes hok
    unfold GetFunction
    dsimp only
    rw [hlk]
    dsimp only
    rw [hok]
    rfl

theorem GetFunction_nil_argTypes_witness :
    (arityCheck ("m:f") sampleFnNode [some .i32] none = none)
    ∧ GetFunction sampleExternals ("m:f") none sampleProgState
        = variantStage sampleExternals ("m:f") sampleFnNode []
            sampleProgState.package sampleProgState.scope
            sampleProgState.compiler
            (sampleExternals.discover (primeState sampleProgState sampleFnNode)) :=
  ⟨(GetFunction_nil_argTypes sampleExternals ("m:f") sampleProgState
      sampleFnNode (by decide)).1 [some .i32],
   (GetFunction_nil_argTypes sampleExternals ("m:f") sampleProgState
      sampleFnNode (by decide)).2.2 [some .i32] (by decide)⟩

/-! ### Helper lemmas for the loader and driver -/

theorem mem_setKey {κ α : Type} [DecidableEq κ] (l : List (κ × α)) (k : κ)
    (v : α) (e : κ × α) (h : e ∈ setKey l k v) : e = (k, v) ∨ e ∈ l := by
  induction l with
  | nil => simpa [setKey] using h
  | cons a rest ih =>
    obtain ⟨k0, v0⟩ := a
    by_cases hk : k0 = k
    · rw [setKey, if_pos hk] at h
      rcases List.mem_cons.mp h with he | hi
      · subst hk
        exact Or.inl he
      · exact Or.inr (List.mem_cons_of_mem _ hi)
    · rw [setKey, if_neg hk] at h
      rcases List.mem_cons.mp h with he | hi
      · exact Or.inr (he ▸ List.mem_cons_self _ _)
      · rcases ih hi with he2 | hi2
        · exact Or.inl he2
        · exact Or.inr (List.mem_cons_of_mem _ hi2)

theorem setKey_mem_self {κ α : Type} [DecidableEq κ] (l : List (κ × α))
    (k : κ) (v : α) : ∃ w, (k, w) ∈ setKey l k v := by
  induction l with
  | nil => exact ⟨v, List.mem_singleton.mpr rfl⟩
  | cons a rest ih =>
    obtain ⟨k0, v0⟩ := a
    by_cases hk : k0 = k
    · subst hk
      exact ⟨v, by rw [setKey, if_pos rfl]; exact List.mem_cons_self _ _⟩
    · obtain ⟨w, hw⟩ := ih
      exact ⟨w, by rw [setKey, if_neg hk]; exact List.mem_cons_of_mem _ hw⟩

theorem setKey_preserves_key {κ α : Type} [DecidableEq κ] (l : List (κ × α))
    (k k' : κ) (v' : α) (h : ∃ v, (k, v) ∈ l) :
    ∃ v, (k, v) ∈ setKey l k' v' := by
  induction l with
  | nil => simpa using h
  | cons a rest ih =>
    obtain ⟨k0, v0⟩ := a
    obtain ⟨v, hv⟩ := h
    by_cases hk : k0 = k'
    · rw [setKey, if_pos hk]
      rcases List.mem_cons.mp hv with he | hi
      · obtain ⟨h1, h2⟩ := Prod.mk.injEq .. ▸ he
        subst h1
        exact ⟨v', List.mem_cons_self _ _⟩
      · exact ⟨v, List.mem_cons_of_mem _ hi⟩
    · rw [setKey, if_neg hk]
      rcases List.mem_cons.mp hv with he | hi
      · exact ⟨v, he ▸ List.mem_cons_self _ _⟩
      · obtain ⟨w, hw⟩ := ih ⟨v, hi⟩
        exact ⟨w, List.mem_cons_of_mem _ hw⟩

theorem firstDirHit_eq_find (isDir : Path → Bool) (filename : String)
    (l : List Path) :
    firstDirHit isDir filename l
      = (l.map (fun sp => pathJoin sp filename)).find? isDir := by
  induction l with
  | nil => rfl
  | cons sp rest ih =>
    cases hd : isDir (pathJoin sp filename)
    · simp [firstDirHit, hd, List.find?_cons_of_neg, ih]
    · simp [firstDirHit, hd, List.find?_cons_of_pos]

theorem depLoop_nil (fs : FileSystem) (fuel : Nat) (st : LoaderState)
    (path : Path) (b : Bool) : depLoop fs fuel st path b [] = .ok st := by
  cases fuel <;> rfl

theorem congealFunctionKey_eq (pkgName fname : String) :
    congealFunctionKey pkgName fname
      = if fname = ("main") ∨ pkgName = ("runtime") then fname
        else pkgName ++ (":") ++ fname := by
  by_cases h : fname = ("main") ∨ pkgName = ("runtime")
  · simp [congealFunctionKey, h]
  · simp [congealFunctionKey, h]

theorem foldl_registerNode_sound (pkgName : String) (nodes : List PNode) :
    ∀ reg, (∀ k fname pn, (k, (fname, pn)) ∈ reg → k = congealFunctionKey pn fname) →
      ∀ k fname pn, (k, (fname, pn)) ∈ nodes.foldl (congealRegisterNode pkgName) reg →
        k = congealFunctionKey pn fname := by
  induction nodes with
  | nil => intro reg h; exact h
  | cons n rest ih =>
    intro reg h k fname pn hm
    refine ih _ ?_ k fname pn hm
    intro k1 f1 p1 h1
    cases n with
    | functionNode f0 =>
      rcases mem_setKey _ _ _ _ h1 with he | hi
      · obtain ⟨hk, hv⟩ := Prod.mk.injEq .. ▸ he
        obtain ⟨hf, hp⟩ := Prod.mk.injEq .. ▸ hv
        subst hk hf hp
        rfl
      · exact h _ _ _ hi
    | namespaceNode nm => exact h _ _ _ h1
    | dependencyNode c ps => exact h _ _ _ h1
    | classNode nm => exact h _ _ _ h1
    | globalDeclNode nm => exact h _ _ _ h1
    | otherNode => exact h _ _ _ h1

theorem foldl_registerNode_preserves (pkgName : String) (nodes : List PNode) :
    ∀ reg k, (∃ v, (k, v) ∈ reg) →
      ∃ v, (k, v) ∈ nodes.foldl (congealRegisterNode pkgName) reg := by
  induction nodes with
  | nil => intro reg k h; exact h
  | cons n rest ih =>
    intro reg k h
    refine ih _ k ?_
    cases n with
    | functionNode f0 => exact setKey_preserves_key _ _ _ _ h
    | namespaceNode nm => exact h
    | dependencyNode c ps => exact h
    | classNode nm => exact h
    | globalDeclNode nm => exact h
    | otherNode => exact h

theorem foldl_registerNode_complete (pkgName : String) (nodes : List PNode)
    (fname : String) (hmem : PNode.functionNode fname ∈ nodes) :
    ∀ reg, ∃ v, (congealFunctionKey pkgName fname, v)
      ∈ nodes.foldl (congealRegisterNode pkgName) reg := by
  induction nodes with
  | nil => exact absurd hmem (List.not_mem_nil _)
  | cons n rest ih =>
    intro reg
    rcases List.mem_cons.mp hmem with he | hi
    · subst he
      exact foldl_registerNode_preserves pkgName rest _ _
        (setKey_mem_self _ _ _)
    · exact ih hi _

theorem foldl_registerPkg_preserves (pkgs : List PackageM) :
    ∀ reg k, (∃ v, (k, v) ∈ reg) →
      ∃ v, (k, v) ∈ pkgs.foldl congealRegisterPkg reg := by
  induction pkgs with
  | nil => intro reg k h; exact h
  | cons pk rest ih =>
    intro reg k h
    exact ih _ k (foldl_registerNode_preserves pk.name pk.nodes reg k h)

/-! ### Claim theorems: path resolver, loader and driver registry -/

/-- C5 (counterexample): on a filesystem where only `/p` is a directory,
`ResolveDepPath("/p", "u")` returns `/p/u` — the claim's candidate order
would already have accepted the second candidate, base itself (`/p`), and
returned it.  The code never tests the bare candidates: it joins the
specifier onto every search root before testing. -/
theorem ResolveDepPath_order_cex :
    ResolveDepPath (fun p => decide (p = [("p")])) [("std")] [("p")] ("u")
        = [("p"), ("u")]
    ∧ resolveDepPathClaim (fun p => decide (p = [("p")])) [("p")] ("u") = [("p")]
    ∧ ([("p"), ("u")] : Path) ≠ ([("p")] : Path) :=
  ⟨by decide, by decide, by decide⟩

/-- C5 (amended): for a non-`std:` specifier, `ResolveDepPath` tests, in
order, `root/specifier` for each search root in the list [base/specifier,
base, `/usr/local/lib/geodelib`, each `geodepkgs` directory walking from
base toward the filesystem root], returns the first such joined candidate
that exists and is a directory, and falls back to base/specifier — so the
first path tested is base/specifier/specifier, and a bare search root is
never returned. -/
theorem ResolveDepPath_spec (isDir : Path → Bool) (std : Path) (base : Path)
    (f : String) (h : strHasPrefix f ("std:") = false) :
    ResolveDepPath isDir std base f
      = (((pathJoin base f :: SearchPaths base).map
            (fun sp => pathJoin sp f)).find? isDir).getD (pathJoin base f)
    ∧ SearchPaths base
        = [base, [("usr"), ("local"), ("lib"), ("geodelib")]]
            ++ geodepkgsChain base := by
  constructor
  · unfold ResolveDepPath
    rw [firstDirHit_eq_find]
    simp only [h, Bool.false_eq_true, if_false]
    cases hf : ((pathJoin base f :: SearchPaths base).map
        (fun sp => pathJoin sp f)).find? isDir <;> simp [hf]
  · rfl

theorem ResolveDepPath_spec_witness :
    ResolveDepPath (fun p => decide (p = [("q"), ("geodepkgs"), ("u")]))
        [("std")] [("q")] ("u")
      = ((((pathJoin [("q")] ("u")) :: SearchPaths [("q")]).map
            (fun sp => pathJoin sp ("u"))).find?
              (fun p => decide (p = [("q"), ("geodepkgs"), ("u")]))).getD
          (pathJoin [("q")] ("u"))
    ∧ SearchPaths [("q")]
        = [[("q")], [("usr"), ("local"), ("lib"), ("geodelib")]]
            ++ geodepkgsChain [("q")] :=
  ResolveDepPath_spec (fun p => decide (p = [("q"), ("geodepkgs"), ("u")]))
    [("std")] [("q")] ("u") (by decide)

/-- C4 (counterexample): parsing a directory with two files that both
declare the namespace `m` produces two distinct Package objects, and the
Program's package map is keyed by the files' paths, not by the namespace
name — no sharing takes place. -/
theorem parseText_shared_package_cex :
    parsePath sampleFS 6 emptyLoaderState [("a")]
      = .ok { parsedFiles := [[("a"), ("f1.g")], [("a"), ("f2.g")]],
              packages :=
                [([("a"), ("f1.g")],
                  { name := ("m"), files := [[("a"), ("f1.g")]],
                    nodes := [.namespaceNode ("m"), .functionNode ("f")],
                    dependencyPaths := [] }),
                 ([("a"), ("f2.g")],
                  { name := ("m"), files := [[("a"), ("f2.g")]],
                    nodes := [.namespaceNode ("m"), .functionNode ("g")],
                    dependencyPaths := [] })],
              clinkages := [] }
    ∧ ({ name := ("m"), files := [[("a"), ("f1.g")]],
         nodes := [.namespaceNode ("m"), .functionNode ("f")],
         dependencyPaths := [] } : PackageM)
        ≠ { name := ("m"), files := [[("a"), ("f2.g")]],
            nodes := [.namespaceNode ("m"), .functionNode ("g")],
            dependencyPaths := [] } :=
  ⟨by decide, by decide⟩

/-- C4 (amended): `ParseText` creates a fresh Package for every file it
parses and stores it in the Program's package map keyed by the file's path:
for a file with a valid namespace, no dependency nodes and an unseen path,
the map gains exactly one entry, keyed by the path, holding a fresh Package
named by the namespace.  Files sharing a namespace therefore get distinct
Package objects. -/
theorem parseText_fresh_package (fs : FileSystem) (fuel : Nat)
    (st : LoaderState) (nodes : List PNode) (path : Path) (ns : String)
    (hns : NamespaceFromNodes nodes = some ns)
    (hm : regexpMatchString ns = true)
    (hdep : nodes.filter (fun n =>
        match n with
        | .dependencyNode _ _ => true
        | _ => false) = [])
    (hnew : lookupKey st.packages path = none) :
    parseText fs (fuel + 1) st nodes path
      = .ok { st with
          parsedFiles := st.parsedFiles ++ [path],
          packages := st.packages ++
            [(path, { name := ns, files := [path], nodes := nodes,
                      dependencyPaths := [] })] } := by
  have h1 : parseText fs (fuel + 1) st nodes path
      = depLoop fs fuel
          { st with
            parsedFiles := st.parsedFiles ++ [path],
            packages := st.packages ++
              [(path, { name := ns, files := [path], nodes := nodes,
                        dependencyPaths := [] })] }
          path true [] := by
    rw [parseText]
    simp only [hns, hm, hnew, hdep, Bool.not_true, Bool.false_eq_true,
      if_false, Option.isNone_none, if_true]
  rw [h1, depLoop_nil]

theorem parseText_fresh_package_witness :
    parseText sampleFS 1 emptyLoaderState
        [.namespaceNode ("m"), .functionNode ("f")] [("a"), ("f3.g")]
      = .ok { parsedFiles := [[("a"), ("f3.g")]],
              packages := [([("a"), ("f3.g")],
                { name := ("m"), files := [[("a"), ("f3.g")]],
                  nodes := [.namespaceNode ("m"), .functionNode ("f")],
                  dependencyPaths := [] })],
              clinkages := [] } :=
  parseText_fresh_package sampleFS 0 emptyLoaderState
    [.namespaceNode ("m"), .functionNode ("f")] [("a"), ("f3.g")] ("m")
    rfl (by decide) rfl rfl

/-- C8 (code-bug evidence): the namespace `Foo` is malformed per the
specification's namespace shape, yet Go's unanchored
`regexp.MatchString("[a-z_]+", "Foo")` succeeds via the substring `oo`, so
`ParseText` raises no error at all: compilation continues and a Package is
created for the file. -/
theorem parseText_malformed_namespace_accepted :
    specNamespaceValid ("Foo") = false
    ∧ regexpMatchString ("Foo") = true
    ∧ parseText sampleFS 1 emptyLoaderState
        [.namespaceNode ("Foo"), .functionNode ("f")] [("a"), ("g.g")]
      = .ok { parsedFiles := [[("a"), ("g.g")]],
              packages := [([("a"), ("g.g")],
                { name := ("Foo"), files := [[("a"), ("g.g")]],
                  nodes := [.namespaceNode ("Foo"), .functionNode ("f")],
                  dependencyPaths := [] })],
              clinkages := [] } :=
  ⟨by decide, by decide, by decide⟩

/-- C7: every entry of the function registry built by `Congeal` is keyed
`"<pkg>:<name>"` except that a function named `main` or one whose package
is named `runtime` is keyed by its unqualified name; and every function
node of every package is registered under its computed key. -/
theorem congealRegistry_keys (pkgs : List PackageM) :
    (∀ k fname pkgName, (k, (fname, pkgName)) ∈ congealRegistry pkgs →
      k = if fname = ("main") ∨ pkgName = ("runtime") then fname
          else pkgName ++ (":") ++ fname)
    ∧ (∀ pkg ∈ pkgs, ∀ fname, PNode.functionNode fname ∈ pkg.nodes →
      ∃ v, (congealFunctionKey pkg.name fname, v) ∈ congealRegistry pkgs) := by
  constructor
  · have hsound : ∀ (ps : List PackageM) (reg : List (String × (String × String))),
        (∀ k fname pn, (k, (fname, pn)) ∈ reg → k = congealFunctionKey pn fname) →
        ∀ k fname pn, (k, (fname, pn)) ∈ ps.foldl congealRegisterPkg reg →
          k = congealFunctionKey pn fname := by
      intro ps
      induction ps with
      | nil => intro reg h; exact h
      | cons pk rest ih =>
        intro reg h
        exact ih _ (foldl_registerNode_sound pk.name pk.nodes reg h)
    intro k fname pkgName hm
    rw [← congealFunctionKey_eq]
    exact hsound pkgs [] (by intro k1 f1 p1 h1; simp at h1) k fname pkgName hm
  · intro pkg hpkg fname hfn
    have hcomp : ∀ (ps : List PackageM) (reg : List (String × (String × String))),
        pkg ∈ ps →
        ∃ v, (congealFunctionKey pkg.name fname, v) ∈ ps.foldl congealRegisterPkg reg := by
      intro ps
      induction ps with
      | nil => intro reg h; exact absurd h (List.not_mem_nil _)
      | cons pk rest ih =>
        intro reg h
        rcases List.mem_cons.mp h with he | hi
        · subst he
          exact foldl_registerPkg_preserves rest _ _
            (foldl_registerNode_complete pkg.name pkg.nodes fname hfn reg)
        · exact ih _ hi
    exact hcomp pkgs [] hpkg

theorem congealRegistry_keys_witness :
    (("m:f") = if ("f") = ("main") ∨ ("m") = ("runtime") then ("f")
               else ("m") ++ (":") ++ ("f"))
    ∧ ∃ v, (congealFunctionKey ("runtime") ("r"), v) ∈ congealRegistry samplePkgs :=
  ⟨(congealRegistry_keys samplePkgs).1 ("m:f") ("f") ("m") (by decide),
   (congealRegistry_keys samplePkgs).2
     { name := ("runtime"), files := [],
       nodes := [.functionNode ("r")], dependencyPaths := [] }
     (by decide) ("r") (by decide)⟩

end Geode
